import Mathlib

/-!
Verification of the HyQ groundwater-drawdown simulator.

This file is a shallow embedding, in Lean 4, of the core computational
code of the HyQ repository:

  * `hyq/theis.py`         — the Theis solver (pure numeric functions);
  * `HyQ/model_backend.py` — grid construction, well-to-cell distance
    matrices, and per-well drawdown fields;
  * `hyq/model.py`         — the `GWModel` simulation engine.

Python floats are embedded as real numbers (`ℝ`), numpy arrays as a
shape together with a total value function, Python dicts with possibly
missing keys as `Option`-valued fields, and operations that can raise a
Python exception as `Except PyError` computations.  Everything is
translated directly from the source; the theorems at the end of the
file settle the specification claims against these definitions.
-/

/-! ## Theis solver (`hyq/theis.py`) -/

noncomputable section

/-- Embedding of `theis_u` (`hyq/theis.py`, lines 3-14).  Computes the
dimensionless Theis parameter `u = r²S/(4Tt)`, after clamping a
non-positive distance `r` to the floor `0.01`
(`r = r if r > 0 else 0.01`). -/
def theis_u (r S T t : ℝ) : ℝ :=
  let r' := if 0 < r then r else 0.01
  (r' ^ 2 * S) / (4 * T * t)

/-- One iteration of the series loop inside `theis_wellfunction`
(`hyq/theis.py`, lines 26-33): with `x = 2 + i`, subtract
`u^x / (x * x!)` from the accumulator when `x` is even and add it when
`x` is odd. -/
def wfStep (u acc : ℝ) (i : ℕ) : ℝ :=
  let x := 2 + i
  if x % 2 = 0 then acc - u ^ x / ((x : ℝ) * (Nat.factorial x : ℝ))
  else acc + u ^ x / ((x : ℝ) * (Nat.factorial x : ℝ))

/-- Embedding of `theis_wellfunction` (`hyq/theis.py`, lines 16-35):
starting from `-0.5772 - ln u + u`, run the series loop for
`i = 0, …, n-1`.  (In the Python source `n` defaults to 30; callers in
this file pass 30 explicitly.) -/
def theis_wellfunction (u : ℝ) (n : ℕ) : ℝ :=
  (List.range n).foldl (wfStep u) (-0.5772 - Real.log u + u)

/-- Embedding of `theis_drawdown` (`hyq/theis.py`, lines 37-53):
`s = (Q / (4πT)) · W(u)` with `u = theis_u r S T t`. -/
def theis_drawdown (Q T r S t : ℝ) (n : ℕ) : ℝ :=
  (Q / (4 * Real.pi * T)) * theis_wellfunction (theis_u r S T t) n

/-- Embedding of `jakob_freegw_mod` (`hyq/theis.py`, lines 55-66): the
Jacob free-surface correction `s - s²/(2H)`. -/
def jakob_freegw_mod (s H : ℝ) : ℝ :=
  s - s ^ 2 / (2 * H)

/-! ## Closed form of the well-function loop -/

/-- The signed series term of index `x` appearing in the well-function
expansion: `u^x/(x·x!)`, subtracted for even `x` and added for odd
`x`. -/
def wfTerm (u : ℝ) (x : ℕ) : ℝ :=
  if x % 2 = 0 then -(u ^ x / ((x : ℝ) * (Nat.factorial x : ℝ)))
  else u ^ x / ((x : ℝ) * (Nat.factorial x : ℝ))

lemma wfStep_eq_add_term (u acc : ℝ) (i : ℕ) :
    wfStep u acc i = acc + wfTerm u (2 + i) := by
  simp only [wfStep, wfTerm]
  by_cases h : (2 + i) % 2 = 0
  · rw [if_pos h, if_pos h]
    ring
  · rw [if_neg h, if_neg h]

/-! ## Data model

Numpy arrays are embedded as a shape (a pair of Python ints, i.e. `ℤ`,
since `math.ceil` may in principle return a negative int) together with
a total value function on indices; only the cells inside the shape
exist in the Python program, so theorems about per-cell values are read
at in-shape indices. -/

/-- A 2-D numpy array of floats: its shape and its per-cell values. -/
@[ext]
structure NArr where
  shape : ℤ × ℤ
  val : ℕ → ℕ → ℝ

/-- Pointwise numpy subtraction `A - B` (used in `run` as
`H = H - sgrid`; both operands always have the same shape there). -/
def NArr.sub (A B : NArr) : NArr :=
  ⟨A.shape, fun i j => A.val i j - B.val i j⟩

/-- Whether the array has no cells, so that an `np.nditer` loop over it
performs no iterations. -/
def NArr.isEmpty (A : NArr) : Bool :=
  if A.shape.1 ≤ 0 ∨ A.shape.2 ≤ 0 then true else false

/-- Embedding of the `well` class (`hyq/wells.py`).  `__init__` sets
`ID`, `x`, `y`, `Q`; the attributes `distmat` and `drawdown` are
attached later by `GWModel` (reading them before they are set raises an
`AttributeError` in Python, hence `Option`). -/
structure Well where
  ID : String
  x : ℝ
  y : ℝ
  Q : ℝ
  distmat : Option NArr := none
  drawdown : Option NArr := none

/-- An argument passed to `GWModel.add_wells`: either a `well` instance
or any other Python object (which `isinstance` filters out). -/
inductive WellArg where
  | wellObj (w : Well)
  | nonWell (tag : ℕ)

/-- The `isinstance(arg, hyq.wells.well)` test of `add_wells`, as a
partial projection. -/
def WellArg.toWell : WellArg → Option Well
  | .wellObj w => some w
  | .nonWell _ => none

/-- The `new_griddescription` dict built by `raster_from_scratch`
(`HyQ/model_backend.py`, lines 10-12). -/
structure GridDescription where
  x_min : ℝ
  y_max : ℝ
  len_x : ℝ
  len_y : ℝ
  res_x : ℝ
  res_y : ℝ

/-- The aquifer parameters stored by `set_aquiferparams`.  The Python
`self.aquifer` dict is either empty (before `set_aquiferparams`) or
holds all four keys, so the model state carries `Option AquiferParams`. -/
structure AquiferParams where
  T : ℝ
  S : ℝ
  M : ℝ
  confined : Bool

/-- The `self.grid` dict of `GWModel`.  Each field is `none` while the
corresponding key is absent (reading it then raises `KeyError`).  The
`crs` entry and the rasterio `affine` transform are opaque export-only
collaborator data and are not part of the core, so they are omitted. -/
structure GridDict where
  description : Option GridDescription := none
  arrayshape : Option (ℤ × ℤ) := none
  origindist : Option NArr := none
  H0 : Option NArr := none

/-- The exceptions the embedded code paths can raise. -/
inductive PyError where
  | keyError (key : String)
  | attributeError (attr : String)
  | valueError (msg : String)
  | zeroDivisionError
deriving DecidableEq

/-- The `GWModel` state (`hyq/model.py`, `__init__`, lines 35-42). -/
structure GWModel where
  grid : GridDict := {}
  aquifer : Option AquiferParams := none
  wells : List Well := []
  timesteps : List ℝ := []
  H : List NArr := []

/-- A freshly constructed `GWModel()`: every dict empty, every list
empty. -/
def GWModel.init : GWModel := {}

/-! ## Grid and field builders (`HyQ/model_backend.py`) -/

/-- Embedding of `math.dist([a, b], [c, d])`: the Euclidean distance in
the plane. -/
def mathDist (p q : ℝ × ℝ) : ℝ :=
  Real.sqrt ((p.1 - q.1) ^ 2 + (p.2 - q.2) ^ 2)

/-- Embedding of `raster_from_scratch` (`HyQ/model_backend.py`, lines
9-23): returns the grid-description dict and the array shape
`(ceil(len_y/res_y), ceil(len_x/res_x))`.  The rasterio affine
transform it also returns is an export-collaborator object outside the
core and is omitted.  (For `res = 0` Python raises `ZeroDivisionError`
inside the ceiling division; that exception is modelled at the
`set_grid` call site, the only caller.) -/
def raster_from_scratch (x_min y_max len_x len_y res_x res_y : ℝ) :
    GridDescription × (ℤ × ℤ) :=
  (⟨x_min, y_max, len_x, len_y, res_x, res_y⟩,
   (⌈len_y / res_y⌉, ⌈len_x / res_x⌉))

/-- The affine cell-to-world mapping used inside
`calculate_well_dist_mat` (`HyQ/model_backend.py`, lines 33-34):
`x = x_min + j*res_x`, `y = y_max - i*res_y`. -/
def cellToWorld (x_min y_max res_x res_y : ℝ) (i j : ℕ) : ℝ × ℝ :=
  (x_min + (j : ℝ) * res_x, y_max - (i : ℝ) * res_y)

/-- Embedding of `calculate_well_dist_mat` (`HyQ/model_backend.py`,
lines 25-37): the per-cell Euclidean distance from the well to each
cell's world coordinate. -/
def calculate_well_dist_mat (w : Well) (shape : ℤ × ℤ)
    (res_x res_y x_min y_max : ℝ) : NArr :=
  ⟨shape, fun i j => mathDist (w.x, w.y) (cellToWorld x_min y_max res_x res_y i j)⟩

/-- Embedding of `calculate_well_drawdown` (`HyQ/model_backend.py`,
lines 39-59).  The Python loop iterates over the cells of
`np.zeros(H0.shape)`; on an empty grid it performs no iterations and
returns the zero array.  On a non-empty grid the first iteration
evaluates `aquiferparams["T"]` (hence `KeyError "T"` on an empty
aquifer dict) and then `well.distmat` (hence `AttributeError` if the
well was never registered); otherwise every cell receives the Theis
drawdown at the precomputed distance, corrected with
`jakob_freegw_mod` against `H0[i, j]` when the aquifer is unconfined. -/
def calculate_well_drawdown (H0 : NArr) (t : ℝ) (w : Well)
    (aquiferparams : Option AquiferParams) : Except PyError NArr :=
  if H0.isEmpty then .ok ⟨H0.shape, fun _ _ => 0⟩
  else
    match aquiferparams with
    | none => .error (.keyError "T")
    | some aq =>
      match w.distmat with
      | none => .error (.attributeError "distmat")
      | some dm =>
        .ok ⟨H0.shape, fun i j =>
          let s := theis_drawdown w.Q aq.T (dm.val i j) aq.S t 30
          if aq.confined then s else jakob_freegw_mod s (H0.val i j)⟩

/-! ## The simulation engine (`hyq/model.py`) -/

/-- Embedding of `GWModel.set_grid` (`hyq/model.py`, lines 44-76).
Builds the grid description and shape via `raster_from_scratch` and the
origin-distance diagnostic field.  A zero resolution raises
`ZeroDivisionError` inside the ceiling division in
`raster_from_scratch`; a negative array shape makes `np.zeros` raise
`ValueError`. -/
def GWModel.set_grid (m : GWModel)
    (x_min y_max len_x len_y res_x res_y : ℝ) : Except PyError GWModel :=
  if res_y = 0 ∨ res_x = 0 then .error .zeroDivisionError
  else
    match raster_from_scratch x_min y_max len_x len_y res_x res_y with
    | (desc, sh) =>
      if sh.1 < 0 ∨ sh.2 < 0 then
        .error (.valueError "negative dimensions are not allowed")
      else
        .ok { m with grid :=
          { m.grid with
            description := some desc
            arrayshape := some sh
            origindist := some ⟨sh, fun i j =>
              mathDist (0, 0) ((j : ℝ) * res_x, (i : ℝ) * res_y)⟩ } }

/-- Embedding of `GWModel.set_aquiferparams` (`hyq/model.py`, lines
78-95).  Reads `self.grid["arrayshape"]` (hence `KeyError` before
`set_grid`), creates the uniform initial head field with `np.full`, and
stores the four aquifer parameters unchanged — the method performs no
validation of `T`, `S`, `M` or `H0`. -/
def GWModel.set_aquiferparams (m : GWModel) (H0 T S M : ℝ)
    (confined : Bool) : Except PyError GWModel :=
  match m.grid.arrayshape with
  | none => .error (.keyError "arrayshape")
  | some sh =>
    if sh.1 < 0 ∨ sh.2 < 0 then
      .error (.valueError "negative dimensions are not allowed")
    else
      .ok { m with
        grid := { m.grid with H0 := some ⟨sh, fun _ _ => H0⟩ }
        aquifer := some ⟨T, S, M, confined⟩ }

/-- Embedding of the private method `GWModel.__calculate_well_dist_mat`
(`hyq/model.py`, lines 97-112): reads the grid description (hence
`KeyError "description"` before `set_grid`) and recomputes the distance
matrix of every well currently in `self.wells` against the current
grid. -/
def GWModel.calc_well_dist_mat (m : GWModel) : Except PyError GWModel :=
  match m.grid.description with
  | none => .error (.keyError "description")
  | some desc =>
    match m.grid.origindist with
    | none => .error (.keyError "origindist")
    | some od =>
      .ok { m with wells := m.wells.map (fun w =>
        { w with distmat := some (calculate_well_dist_mat w od.shape
            desc.res_x desc.res_y desc.x_min desc.y_max) }) }

/-- Embedding of `GWModel.add_wells` (`hyq/model.py`, lines 114-123):
append the arguments that are `well` instances (silently dropping the
rest), then recompute every registered well's distance matrix. -/
def GWModel.add_wells (m : GWModel) (args : List WellArg) :
    Except PyError GWModel :=
  GWModel.calc_well_dist_mat
    { m with wells := m.wells ++ args.filterMap WellArg.toWell }

/-- Embedding of `GWModel.set_timesteps` (`hyq/model.py`, lines
125-133): stores the list unchanged, with no validation. -/
def GWModel.set_timesteps (m : GWModel) (tlist : List ℝ) : GWModel :=
  { m with timesteps := tlist }

/-- The inner well loop of `GWModel.run` (`hyq/model.py`, lines
141-146): for each well compute its drawdown field, store it on the
well (overwriting any previous value) and subtract it from the running
head accumulator. -/
def runWellLoop (H0 : NArr) (t : ℝ) (aq : Option AquiferParams) :
    List Well → NArr → Except PyError (List Well × NArr)
  | [], H => .ok ([], H)
  | w :: ws, H =>
    match calculate_well_drawdown H0 t w aq with
    | .error e => .error e
    | .ok sgrid =>
      match runWellLoop H0 t aq ws (NArr.sub H sgrid) with
      | .error e => .error e
      | .ok (ws', H') => .ok ({ w with drawdown := some sgrid } :: ws', H')

/-- The outer timestep loop of `GWModel.run` (`hyq/model.py`, lines
139-147): each timestep starts its head accumulator from `H0` and
appends the resulting snapshot to the accumulated result list. -/
def runTimestepLoop (H0 : NArr) (aq : Option AquiferParams) :
    List ℝ → List Well → List NArr → Except PyError (List Well × List NArr)
  | [], ws, acc => .ok (ws, acc)
  | t :: ts, ws, acc =>
    match runWellLoop H0 t aq ws H0 with
    | .error e => .error e
    | .ok (ws', Hsnap) => runTimestepLoop H0 aq ts ws' (acc ++ [Hsnap])

/-- Embedding of `GWModel.run` (`hyq/model.py`, lines 135-147): read
`self.grid["H0"]` (hence `KeyError "H0"` before `set_aquiferparams`)
and run the timestep loop, appending onto the existing `self.H`. -/
def GWModel.run (m : GWModel) : Except PyError GWModel :=
  match m.grid.H0 with
  | none => .error (.keyError "H0")
  | some H0f =>
    match runTimestepLoop H0f m.aquifer m.timesteps m.wells m.H with
    | .error e => .error e
    | .ok (ws', Hs) => .ok { m with wells := ws', H := Hs }

lemma wf_foldl (u : ℝ) :
    ∀ (n : ℕ) (init : ℝ),
      (List.range n).foldl (wfStep u) init
        = init + ∑ x in Finset.Icc 2 (n + 1), wfTerm u x := by
  intro n
  induction n with
  | zero =>
    intro init
    simp
  | succ m ih =>
    intro init
    rw [List.range_succ, List.foldl_append]
    rw [ih init]
    simp only [List.foldl_cons, List.foldl_nil]
    rw [wfStep_eq_add_term]
    have h2 : 2 ≤ m + 1 + 1 := by omega
    rw [Finset.sum_Icc_succ_top h2]
    have hx : 2 + m = m + 1 + 1 := by omega
    rw [hx]
    ring

/-! ## Characterization of `run`

The helper definitions below name the per-well drawdown field, the
per-well state update and the per-timestep head snapshot that `run`
produces; the lemmas prove that `run` computes exactly these. -/

/-- The drawdown field `calculate_well_drawdown` computes for a
registered well on a non-empty grid (the `getD` default is never
reached when `w.distmat` is set, which `add_wells` guarantees for every
registered well). -/
def wellField (H0f : NArr) (t : ℝ) (aq : AquiferParams) (w : Well) : NArr :=
  ⟨H0f.shape, fun i j =>
    let s := theis_drawdown w.Q aq.T
      ((w.distmat.getD ⟨H0f.shape, fun _ _ => 0⟩).val i j) aq.S t 30
    if aq.confined then s else jakob_freegw_mod s (H0f.val i j)⟩

/-- The per-timestep mutation `well.drawdown = sgrid` performed by
`run` on each registered well. -/
def updWell (H0f : NArr) (aq : AquiferParams) (t : ℝ) (w : Well) : Well :=
  { w with drawdown := some (wellField H0f t aq w) }

/-- The head snapshot `run` appends for timestep `t`: the initial head
minus the sum of the drawdown fields of the given wells. -/
def snapshot (H0f : NArr) (aq : AquiferParams) (ws : List Well) (t : ℝ) : NArr :=
  ⟨H0f.shape, fun i j =>
    H0f.val i j - (ws.map (fun w => (wellField H0f t aq w).val i j)).sum⟩

lemma calculate_well_drawdown_ok (H0f : NArr) (t : ℝ) (aq : AquiferParams)
    (w : Well) (dm : NArr) (hdm : w.distmat = some dm)
    (hne : H0f.isEmpty = false) :
    calculate_well_drawdown H0f t w (some aq) = .ok (wellField H0f t aq w) := by
  simp [calculate_well_drawdown, wellField, hne, hdm]

lemma runWellLoop_char (H0f : NArr) (t : ℝ) (aq : AquiferParams)
    (hne : H0f.isEmpty = false) :
    ∀ (ws : List Well) (H : NArr), (∀ w ∈ ws, w.distmat.isSome = true) →
      runWellLoop H0f t (some aq) ws H =
        .ok (ws.map (updWell H0f aq t),
          ⟨H.shape, fun i j =>
            H.val i j - (ws.map (fun w => (wellField H0f t aq w).val i j)).sum⟩) := by
  intro ws
  induction ws with
  | nil =>
    intro H _
    simp [runWellLoop]
  | cons w ws ih =>
    intro H hdm
    obtain ⟨dm, hdmw⟩ := Option.isSome_iff_exists.mp (hdm w (by simp))
    rw [runWellLoop, calculate_well_drawdown_ok H0f t aq w dm hdmw hne]
    dsimp only
    rw [ih (NArr.sub H (wellField H0f t aq w))
        (fun w' hw' => hdm w' (List.mem_cons_of_mem _ hw'))]
    dsimp only
    simp only [List.map_cons, List.sum_cons, updWell, Except.ok.injEq,
      Prod.mk.injEq]
    refine ⟨trivial, NArr.ext rfl ?_⟩
    funext i j
    simp [NArr.sub]
    ring

lemma snapshot_map_upd (H0f : NArr) (aq : AquiferParams) (ws : List Well)
    (t t' : ℝ) :
    snapshot H0f aq (ws.map (updWell H0f aq t)) t' = snapshot H0f aq ws t' := by
  unfold snapshot
  congr 1
  funext i j
  rw [List.map_map]
  rfl

lemma runTimestepLoop_char (H0f : NArr) (aq : AquiferParams)
    (hne : H0f.isEmpty = false) :
    ∀ (ts : List ℝ) (ws : List Well) (acc : List NArr),
      (∀ w ∈ ws, w.distmat.isSome = true) →
      runTimestepLoop H0f (some aq) ts ws acc =
        .ok ((match ts.getLast? with
              | none => ws
              | some tl => ws.map (updWell H0f aq tl)),
             acc ++ ts.map (snapshot H0f aq ws)) := by
  intro ts
  induction ts with
  | nil =>
    intro ws acc _
    simp [runTimestepLoop]
  | cons t ts ih =>
    intro ws acc hdm
    rw [runTimestepLoop, runWellLoop_char H0f t aq hne ws H0f hdm]
    dsimp only
    have hdm' : ∀ w ∈ ws.map (updWell H0f aq t), w.distmat.isSome = true := by
      intro w' hw'
      obtain ⟨w, hw, rfl⟩ := List.mem_map.mp hw'
      exact hdm w hw
    show runTimestepLoop H0f (some aq) ts (ws.map (updWell H0f aq t))
        (acc ++ [snapshot H0f aq ws t])
      = Except.ok ((match (t :: ts).getLast? with
            | none => ws
            | some tl => ws.map (updWell H0f aq tl)),
          acc ++ (t :: ts).map (snapshot H0f aq ws))
    rw [ih (ws.map (updWell H0f aq t)) (acc ++ [snapshot H0f aq ws t]) hdm']
    have hmap : snapshot H0f aq (ws.map (updWell H0f aq t)) = snapshot H0f aq ws :=
      funext fun t' => snapshot_map_upd H0f aq ws t t'
    cases ts with
    | nil =>
      simp
    | cons t2 ts2 =>
      cases hlast : (t2 :: ts2).getLast? with
      | none =>
        rw [List.getLast?_eq_none_iff] at hlast
        exact absurd hlast (by simp)
      | some tl =>
        simp only [List.getLast?_cons_cons, hlast, List.map_map,
          List.append_assoc, List.singleton_append, List.map_cons]
        rw [hmap]
        rfl

lemma run_char (m : GWModel) (H0f : NArr) (aq : AquiferParams)
    (hH0 : m.grid.H0 = some H0f) (haq : m.aquifer = some aq)
    (hdm : ∀ w ∈ m.wells, w.distmat.isSome = true)
    (hne : H0f.isEmpty = false) :
    m.run = Except.ok { m with
      wells := (match m.timesteps.getLast? with
        | none => m.wells
        | some tl => m.wells.map (updWell H0f aq tl)),
      H := m.H ++ m.timesteps.map (snapshot H0f aq m.wells) } := by
  unfold GWModel.run
  rw [hH0]
  dsimp only
  rw [haq, runTimestepLoop_char H0f aq hne m.timesteps m.wells m.H hdm]

/-! ## Claim C1: what `run` appends, well-attribute overwriting,
re-run accumulation and superposition -/

/-- The full behaviour of `run` claimed by C1, for a model `m` whose
initial head field is `H0f` and whose aquifer parameters are `aq`:

1. `run` succeeds and appends, for each timestep in list order, exactly
   one snapshot onto the existing `m.H`, while each registered well's
   `drawdown` attribute ends up holding the field of the last timestep
   (wells are untouched when the timestep list is empty);
2. each snapshot is the initial uniform head `H0f` (not the previous
   snapshot) minus the sum, in registration order, of the wells'
   drawdown fields at that timestep;
3. a single-well run of the same model produces the snapshot obtained
   from that well's drawdown field alone;
4. the multi-well total drawdown is the pointwise linear sum of the
   independent single-well drawdowns;
5. a second `run` without reset extends `H` again instead of replacing
   it. -/
def RunSuperpositionSpec (m : GWModel) (H0f : NArr) (aq : AquiferParams) : Prop :=
  (m.run = Except.ok { m with
      wells := (match m.timesteps.getLast? with
        | none => m.wells
        | some tl => m.wells.map (updWell H0f aq tl)),
      H := m.H ++ m.timesteps.map (snapshot H0f aq m.wells) })
  ∧ (∀ t : ℝ, ∀ i j : ℕ, (snapshot H0f aq m.wells t).val i j
      = H0f.val i j - (m.wells.map (fun w => (wellField H0f t aq w).val i j)).sum)
  ∧ (∀ w ∈ m.wells,
      GWModel.run { m with wells := [w], H := [] }
        = Except.ok { m with
            wells := (match m.timesteps.getLast? with
              | none => [w]
              | some tl => [updWell H0f aq tl w]),
            H := m.timesteps.map (snapshot H0f aq [w]) })
  ∧ (∀ t : ℝ, ∀ i j : ℕ, H0f.val i j - (snapshot H0f aq m.wells t).val i j
      = (m.wells.map (fun w => H0f.val i j - (snapshot H0f aq [w] t).val i j)).sum)
  ∧ (∀ m', m.run = Except.ok m' →
      ∃ m'', m'.run = Except.ok m''
        ∧ m''.H = m.H ++ m.timesteps.map (snapshot H0f aq m.wells)
            ++ m.timesteps.map (snapshot H0f aq m.wells))

/-- C1.  A call to `run()` appends onto the existing result sequence
`H`, for each timestep in list order, exactly one head snapshot equal
to the initial uniform head field `H0` minus the sum, over all
registered wells in registration order, of that well's drawdown field
at that time; every snapshot starts from `H0`, each well's `drawdown`
attribute is overwritten each timestep so after `run()` it holds the
last timestep's field, a second `run()` without reset extends `H`
rather than replacing it, and the multi-well result is the linear sum
of independent single-well drawdowns. -/
theorem run_appends_snapshots_and_superposes
    (m : GWModel) (H0f : NArr) (aq : AquiferParams)
    (hH0 : m.grid.H0 = some H0f) (haq : m.aquifer = some aq)
    (hdm : ∀ w ∈ m.wells, w.distmat.isSome = true)
    (hne : H0f.isEmpty = false) :
    RunSuperpositionSpec m H0f aq := by
  have hchar := run_char m H0f aq hH0 haq hdm hne
  refine ⟨hchar, fun t i j => rfl, ?_, ?_, ?_⟩
  · intro w hw
    have hdm1 : ∀ w' ∈ [w], w'.distmat.isSome = true := by
      intro w' hw'
      rw [List.mem_singleton] at hw'
      rw [hw']
      exact hdm w hw
    exact run_char { m with wells := [w], H := [] } H0f aq hH0 haq hdm1 hne
  · intro t i j
    simp [snapshot, sub_sub_cancel]
  · intro m' hm'
    rw [hchar] at hm'
    have hrec := (Except.ok.inj hm').symm
    subst hrec
    have hpair : (∀ w' ∈ (match m.timesteps.getLast? with
          | none => m.wells
          | some tl => m.wells.map (updWell H0f aq tl)), w'.distmat.isSome = true)
        ∧ snapshot H0f aq (match m.timesteps.getLast? with
          | none => m.wells
          | some tl => m.wells.map (updWell H0f aq tl))
          = snapshot H0f aq m.wells := by
      cases m.timesteps.getLast? with
      | none => exact ⟨hdm, rfl⟩
      | some tl =>
        refine ⟨?_, funext fun t' => snapshot_map_upd H0f aq m.wells tl t'⟩
        intro w' hw'
        obtain ⟨w, hw, rfl⟩ := List.mem_map.mp hw'
        exact hdm w hw
    refine ⟨_, run_char _ H0f aq hH0 haq hpair.1 hne, ?_⟩
    dsimp only
    rw [hpair.2]

/-! ## Example model used by witnesses: 100 m × 100 m grid at 10 m
resolution, one well, confined aquifer (and an unconfined variant) -/

/-- The example well (before registration). -/
def wEx1 : Well := { ID := "w1", x := 30, y := 70, Q := 0.01 }

/-- The example well's distance matrix against the example grid. -/
def dmEx1 : NArr := calculate_well_dist_mat wEx1 (10, 10) 10 10 0 100

/-- The example well as registered by `add_wells`. -/
def wEx1r : Well := { wEx1 with distmat := some dmEx1 }

/-- The example initial head field (uniform 50 m). -/
def H0Ex1 : NArr := ⟨(10, 10), fun _ _ => 50⟩

/-- The example confined aquifer parameters. -/
def aqEx1 : AquiferParams := ⟨0.001, 0.0001, 10, true⟩

/-- A fully set-up example model (grid set, aquifer set, one well
registered, two timesteps), confined. -/
def mEx1 : GWModel :=
  { grid := { description := some ⟨0, 100, 100, 100, 10, 10⟩,
              arrayshape := some (10, 10),
              origindist := some ⟨(10, 10), fun i j =>
                mathDist (0, 0) ((j : ℝ) * 10, (i : ℝ) * 10)⟩,
              H0 := some H0Ex1 },
    aquifer := some aqEx1,
    wells := [wEx1r],
    timesteps := [3600, 7200],
    H := [] }

lemma mEx1_wells_distmat : ∀ w ∈ mEx1.wells, w.distmat.isSome = true := by
  intro w hw
  simp only [mEx1] at hw
  rw [List.mem_singleton] at hw
  rw [hw]
  rfl

/-- Witness for C1: the run-characterization theorem applied to the
concrete example model. -/
theorem run_appends_snapshots_and_superposes_witness :
    (mEx1.grid.H0 = some H0Ex1 ∧ mEx1.aquifer = some aqEx1
      ∧ (∀ w ∈ mEx1.wells, w.distmat.isSome = true) ∧ H0Ex1.isEmpty = false)
    ∧ RunSuperpositionSpec mEx1 H0Ex1 aqEx1 :=
  ⟨⟨rfl, rfl, mEx1_wells_distmat, rfl⟩,
   run_appends_snapshots_and_superposes mEx1 H0Ex1 aqEx1 rfl rfl
     mEx1_wells_distmat rfl⟩

/-! ## Claim C5: the unconfined correction always references the
initial head field `H0`, never the running head -/

/-- The behaviour claimed by C5: `run` builds every appended snapshot
from per-well drawdown fields, and (second conjunct) the value a well's
drawdown field takes at a cell is the Jacob-corrected Theis drawdown
whose correction reference is `H0f.val i j` — the undisturbed initial
head at that cell — for every well, every timestep and every cell, with
no dependence on any other well or any running head. -/
def UnconfinedH0Spec (m : GWModel) (H0f : NArr) (aq : AquiferParams) : Prop :=
  (m.run = Except.ok { m with
      wells := (match m.timesteps.getLast? with
        | none => m.wells
        | some tl => m.wells.map (updWell H0f aq tl)),
      H := m.H ++ m.timesteps.map (snapshot H0f aq m.wells) })
  ∧ (∀ (t : ℝ) (w : Well) (i j : ℕ),
      (wellField H0f t aq w).val i j
        = jakob_freegw_mod
            (theis_drawdown w.Q aq.T
              ((w.distmat.getD ⟨H0f.shape, fun _ _ => 0⟩).val i j) aq.S t 30)
            (H0f.val i j))

/-- C5.  When the aquifer is unconfined, for every well, every timestep
and every cell, the drawdown field built during `run()` applies the
unconfined correction using the initial uniform head field `H0` at that
cell, never the running head obtained after subtracting other wells'
(or other timesteps') drawdown. -/
theorem unconfined_correction_uses_H0
    (m : GWModel) (H0f : NArr) (aq : AquiferParams)
    (hH0 : m.grid.H0 = some H0f) (haq : m.aquifer = some aq)
    (hdm : ∀ w ∈ m.wells, w.distmat.isSome = true)
    (hne : H0f.isEmpty = false) (hconf : aq.confined = false) :
    UnconfinedH0Spec m H0f aq := by
  refine ⟨run_char m H0f aq hH0 haq hdm hne, ?_⟩
  intro t w i j
  simp [wellField, hconf]

/-- The example unconfined aquifer parameters. -/
def aqEx5 : AquiferParams := ⟨0.001, 0.0001, 10, false⟩

/-- The example model with an unconfined aquifer. -/
def mEx5 : GWModel := { mEx1 with aquifer := some aqEx5 }

lemma mEx5_wells_distmat : ∀ w ∈ mEx5.wells, w.distmat.isSome = true := by
  intro w hw
  simp only [mEx5, mEx1] at hw
  rw [List.mem_singleton] at hw
  rw [hw]
  rfl

/-- Witness for C5: the unconfined-correction theorem applied to the
concrete unconfined example model. -/
theorem unconfined_correction_uses_H0_witness :
    (mEx5.grid.H0 = some H0Ex1 ∧ mEx5.aquifer = some aqEx5
      ∧ (∀ w ∈ mEx5.wells, w.distmat.isSome = true) ∧ H0Ex1.isEmpty = false
      ∧ aqEx5.confined = false)
    ∧ UnconfinedH0Spec mEx5 H0Ex1 aqEx5 :=
  ⟨⟨rfl, rfl, mEx5_wells_distmat, rfl, rfl⟩,
   unconfined_correction_uses_H0 mEx5 H0Ex1 aqEx5 rfl rfl
     mEx5_wells_distmat rfl rfl⟩

/-! ## Claim C2: grid shape and the distance field -/

/-- C2.  `raster_from_scratch` produces array shape
`(ceil(len_y/res_y), ceil(len_x/res_x))`, and the distance matrix
assigns to every cell `(i, j)` the Euclidean distance between the
well's coordinates and the cell's world coordinate
`(x_min + j·res_x, y_max − i·res_y)`; for the 100 m × 100 m example
grid at 10 m resolution the shape is `(10, 10)`, cell `(0,0)` maps to
world coordinate `(0, 100)` and cell `(9,9)` maps to `(90, 10)`. -/
theorem grid_shape_and_distance_field
    (x_min y_max len_x len_y res_x res_y : ℝ) (w : Well) (shape : ℤ × ℤ)
    (i j : ℕ) :
    ((raster_from_scratch x_min y_max len_x len_y res_x res_y).2
        = (⌈len_y / res_y⌉, ⌈len_x / res_x⌉))
    ∧ ((calculate_well_dist_mat w shape res_x res_y x_min y_max).val i j
        = Real.sqrt ((w.x - (x_min + (j : ℝ) * res_x)) ^ 2
            + (w.y - (y_max - (i : ℝ) * res_y)) ^ 2))
    ∧ ((raster_from_scratch 0 100 100 100 10 10).2 = ((10 : ℤ), (10 : ℤ)))
    ∧ cellToWorld 0 100 10 10 0 0 = ((0 : ℝ), (100 : ℝ))
    ∧ cellToWorld 0 100 10 10 9 9 = ((90 : ℝ), (10 : ℝ)) := by
  refine ⟨rfl, rfl, ?_, ?_, ?_⟩
  · show ((⌈(100 : ℝ) / 10⌉, ⌈(100 : ℝ) / 10⌉) : ℤ × ℤ) = (10, 10)
    norm_num
  · unfold cellToWorld
    norm_num
  · unfold cellToWorld
    norm_num

/-! ## Claim C3: the well-function series -/

/-- C3.  For every `u > 0` and every `n ≥ 0`, `theis_wellfunction u n`
equals `-0.5772 - ln u + u` plus the sum of the `n` terms
`u^x/(x·x!)` for `x = 2, …, n+1`, each term with even `x` subtracted
and each term with odd `x` added. -/
theorem wellfunction_series_closed_form (u : ℝ) (n : ℕ) (_hu : 0 < u) :
    theis_wellfunction u n
      = -0.5772 - Real.log u + u
        + ∑ x in Finset.Icc 2 (n + 1),
            (if x % 2 = 0 then -(u ^ x / ((x : ℝ) * (Nat.factorial x : ℝ)))
             else u ^ x / ((x : ℝ) * (Nat.factorial x : ℝ))) := by
  unfold theis_wellfunction
  exact wf_foldl u n _

/-- Witness for C3 at `u = 1`, `n = 2`. -/
theorem wellfunction_series_closed_form_witness :
    (0 : ℝ) < 1
    ∧ theis_wellfunction 1 2
        = -0.5772 - Real.log 1 + 1
          + ∑ x in Finset.Icc (2 : ℕ) (2 + 1),
              (if x % 2 = 0 then -((1 : ℝ) ^ x / ((x : ℝ) * (Nat.factorial x : ℝ)))
               else (1 : ℝ) ^ x / ((x : ℝ) * (Nat.factorial x : ℝ))) :=
  ⟨by norm_num, wellfunction_series_closed_form 1 2 (by norm_num)⟩

/-! ## Claim C4: the distance floor in `theis_u` and `theis_drawdown` -/

/-- C4.  `theis_u r S T t` returns `r²S/(4Tt)` for `r > 0` and
`(0.01)²S/(4Tt)` for `r ≤ 0` (the clamp to the 0.01 distance floor);
consequently, for positive `S`, `T`, `t` and any `Q`, `n`,
`theis_drawdown` at `r = 0` equals `theis_drawdown` at `r = 0.01`. -/
theorem theis_u_distance_floor (r S T t Q : ℝ) (n : ℕ) :
    (0 < r → theis_u r S T t = r ^ 2 * S / (4 * T * t))
    ∧ (r ≤ 0 → theis_u r S T t = (0.01) ^ 2 * S / (4 * T * t))
    ∧ (0 < S → 0 < T → 0 < t →
        theis_drawdown Q T 0 S t n = theis_drawdown Q T 0.01 S t n) := by
  refine ⟨?_, ?_, ?_⟩
  · intro hr
    simp [theis_u, hr]
  · intro hr
    simp [theis_u, not_lt.mpr hr]
  · intro _ _ _
    have h1 : theis_u 0 S T t = theis_u 0.01 S T t := by
      have h001 : (0 : ℝ) < 0.01 := by norm_num
      simp [theis_u, h001]
    unfold theis_drawdown
    rw [h1]

/-- Witness for C4 at concrete inputs (`r = 1` for the positive branch,
`r = -1` for the clamped branch, unit aquifer parameters for the
floor consequence). -/
theorem theis_u_distance_floor_witness :
    theis_u 1 1 1 1 = (1 : ℝ) ^ 2 * 1 / (4 * 1 * 1)
    ∧ theis_u (-1) 1 1 1 = ((0.01) : ℝ) ^ 2 * 1 / (4 * 1 * 1)
    ∧ theis_drawdown 1 1 0 1 1 30 = theis_drawdown 1 1 0.01 1 1 30 :=
  ⟨(theis_u_distance_floor 1 1 1 1 1 30).1 (by norm_num),
   (theis_u_distance_floor (-1) 1 1 1 1 30).2.1 (by norm_num),
   (theis_u_distance_floor 1 1 1 1 1 30).2.2 (by norm_num) (by norm_num)
     (by norm_num)⟩

/-! ## Claim C6: the Jacob unconfined correction -/

/-- C6.  `jakob_freegw_mod s H` returns `s - s²/(2H)` for every
`H ≠ 0`, and for every `s > 0` and `H > 0` the returned value is
strictly less than `s`. -/
theorem jakob_correction_formula_and_decrease (s H : ℝ) :
    (H ≠ 0 → jakob_freegw_mod s H = s - s ^ 2 / (2 * H))
    ∧ (0 < s → 0 < H → jakob_freegw_mod s H < s) := by
  refine ⟨fun _ => rfl, fun hs hH => ?_⟩
  unfold jakob_freegw_mod
  have hpos : 0 < s ^ 2 / (2 * H) := div_pos (pow_pos hs 2) (by linarith)
  linarith

/-- Witness for C6 at `s = 1`, `H = 1`. -/
theorem jakob_correction_formula_and_decrease_witness :
    jakob_freegw_mod 1 1 = 1 - (1 : ℝ) ^ 2 / (2 * 1)
    ∧ jakob_freegw_mod 1 1 < 1 :=
  ⟨(jakob_correction_formula_and_decrease 1 1).1 (by norm_num),
   (jakob_correction_formula_and_decrease 1 1).2 (by norm_num) (by norm_num)⟩

/-! ## Claims C7 and C8: what actually happens on invalid parameters
and out-of-sequence calls -/

/-- A model on which only `set_grid` has been run (the state reached by
`GWModel()` followed by `set_grid(0, 100, 100, 100, 10, 10)`). -/
def descEx7 : GridDescription := ⟨0, 100, 100, 100, 10, 10⟩

/-- The origin-distance diagnostic field of the example grid. -/
def odEx7 : NArr :=
  ⟨(10, 10), fun i j => mathDist (0, 0) ((j : ℝ) * 10, (i : ℝ) * 10)⟩

/-- The example model right after `set_grid`. -/
def mGrid7 : GWModel :=
  { grid := { description := some descEx7
              arrayshape := some (10, 10)
              origindist := some odEx7 } }

/-- The transmissivity stored in the model produced by a setter call,
if the call succeeded and the aquifer dict is populated. -/
def aquiferT : Except PyError GWModel → Option ℝ
  | .ok mm => mm.aquifer.map (fun a => a.T)
  | .error _ => none

/-- Counterexample to C7: `set_aquiferparams` called with the
non-positive transmissivity and storativity `T = S = -1` is not
rejected — it succeeds (so `aquiferT` reads back `some (-1)` rather
than the `none` an error would give) and stores the invalid value; and
`set_timesteps` stores the non-positive timestep `-5` unchanged. -/
theorem invalid_params_stored_without_error_cex :
    aquiferT (mGrid7.set_aquiferparams 50 (-1) (-1) 10 true) = some (-1)
    ∧ (GWModel.init.set_timesteps [(-5 : ℝ)]).timesteps = [(-5 : ℝ)] :=
  ⟨rfl, rfl⟩

/-- C7 (amended).  `set_aquiferparams` and `set_timesteps` perform no
validation: every transmissivity, storativity, thickness, head or
timestep value — non-positive ones included — is stored unchanged
without error (the only failure mode of `set_aquiferparams` is a
missing or degenerate grid). -/
theorem setters_store_unvalidated (m : GWModel) (sh : ℤ × ℤ)
    (hsh : m.grid.arrayshape = some sh) (h1 : 0 ≤ sh.1) (h2 : 0 ≤ sh.2)
    (H0v T S M : ℝ) (confined : Bool) (tl : List ℝ) :
    m.set_aquiferparams H0v T S M confined
      = Except.ok { m with
          grid := { m.grid with H0 := some ⟨sh, fun _ _ => H0v⟩ }
          aquifer := some ⟨T, S, M, confined⟩ }
    ∧ m.set_timesteps tl = { m with timesteps := tl } := by
  constructor
  · unfold GWModel.set_aquiferparams
    rw [hsh]
    dsimp only
    rw [if_neg (by omega)]
  · rfl

/-- Witness for the amended C7: the setters applied to the example
grid-only model with the invalid values `T = S = -1` and timestep
`-5`. -/
theorem setters_store_unvalidated_witness :
    (mGrid7.grid.arrayshape = some ((10 : ℤ), (10 : ℤ))
      ∧ (0 : ℤ) ≤ 10 ∧ (0 : ℤ) ≤ 10)
    ∧ (mGrid7.set_aquiferparams 50 (-1) (-1) 10 true
        = Except.ok { mGrid7 with
            grid := { mGrid7.grid with
              H0 := some ⟨((10 : ℤ), (10 : ℤ)), fun _ _ => 50⟩ }
            aquifer := some ⟨-1, -1, 10, true⟩ }
      ∧ mGrid7.set_timesteps [(-5 : ℝ)] = { mGrid7 with timesteps := [(-5 : ℝ)] }) :=
  ⟨⟨rfl, by norm_num, by norm_num⟩,
   setters_store_unvalidated mGrid7 (10, 10) rfl (by norm_num) (by norm_num)
     50 (-1) (-1) 10 true [(-5 : ℝ)]⟩

/-- Counterexample to C8: calling `add_wells` on a fresh model (before
`set_grid`) does not produce a clear "not initialized" condition — the
only failure the code can raise there is the low-level dictionary
lookup fault `KeyError: 'description'` (the `PyError` type, which
enumerates every exception these code paths can raise, has no
not-initialized variant at all). -/
theorem out_of_sequence_keyerror_cex :
    GWModel.init.add_wells [WellArg.wellObj wEx1]
      = Except.error (PyError.keyError "description") :=
  rfl

/-- C8 (amended).  Operations invoked out of the required setup
sequence do fail fast at the offending call, but with a cryptic
low-level `KeyError` naming the missing internal dict key —
`"description"` when `add_wells` precedes `set_grid`, `"H0"` when
`run` precedes `set_aquiferparams` — not with a clear "not
initialized" condition. -/
theorem out_of_sequence_fails_with_keyerror (m m2 : GWModel)
    (args : List WellArg) (h1 : m.grid.description = none)
    (h2 : m2.grid.H0 = none) :
    m.add_wells args = Except.error (PyError.keyError "description")
    ∧ m2.run = Except.error (PyError.keyError "H0") := by
  constructor
  · unfold GWModel.add_wells GWModel.calc_well_dist_mat
    dsimp only
    rw [h1]
  · unfold GWModel.run
    rw [h2]

/-- Witness for the amended C8: both out-of-sequence calls on the fresh
model. -/
theorem out_of_sequence_fails_with_keyerror_witness :
    (GWModel.init.grid.description = none ∧ GWModel.init.grid.H0 = none)
    ∧ (GWModel.init.add_wells [WellArg.nonWell 0]
          = Except.error (PyError.keyError "description")
        ∧ GWModel.init.run = Except.error (PyError.keyError "H0")) :=
  ⟨⟨rfl, rfl⟩,
   out_of_sequence_fails_with_keyerror GWModel.init GWModel.init
     [WellArg.nonWell 0] rfl rfl⟩

/-! ## Claims C9 and C10: `add_wells` filtering and distance-matrix
recomputation -/

lemma add_wells_char (m : GWModel) (desc : GridDescription) (od : NArr)
    (hdesc : m.grid.description = some desc)
    (hod : m.grid.origindist = some od) (args : List WellArg) :
    m.add_wells args = Except.ok { m with
      wells := (m.wells ++ args.filterMap WellArg.toWell).map (fun w =>
        { w with distmat := some (calculate_well_dist_mat w od.shape
            desc.res_x desc.res_y desc.x_min desc.y_max) }) } := by
  unfold GWModel.add_wells GWModel.calc_well_dist_mat
  dsimp only
  rw [hdesc]
  dsimp only
  rw [hod]

/-- The identity of a well: the attributes set by `well.__init__`,
without the `distmat`/`drawdown` caches the model mutates. -/
def Well.core (w : Well) : String × ℝ × ℝ × ℝ := (w.ID, w.x, w.y, w.Q)

/-- C9.  `add_wells` silently drops every argument that is not a well
instance — the call still succeeds with no error or signal — while
every well instance among the arguments is appended to the model's well
collection in argument order (the `filterMap` below keeps exactly the
well arguments, in order). -/
theorem add_wells_filters_nonwells_silently (m : GWModel)
    (desc : GridDescription) (od : NArr)
    (hdesc : m.grid.description = some desc)
    (hod : m.grid.origindist = some od) (args : List WellArg) :
    ∃ m', m.add_wells args = Except.ok m'
      ∧ m'.wells.map Well.core
          = (m.wells ++ args.filterMap WellArg.toWell).map Well.core := by
  refine ⟨_, add_wells_char m desc od hdesc hod args, ?_⟩
  dsimp only
  rw [List.map_map]
  rfl

/-- Witness for C9: registering one well and one non-well object on the
example grid-only model. -/
theorem add_wells_filters_nonwells_silently_witness :
    (mGrid7.grid.description = some descEx7
      ∧ mGrid7.grid.origindist = some odEx7)
    ∧ ∃ m', mGrid7.add_wells [WellArg.wellObj wEx1, WellArg.nonWell 3]
          = Except.ok m'
        ∧ m'.wells.map Well.core
            = (mGrid7.wells
                ++ [WellArg.wellObj wEx1, WellArg.nonWell 3].filterMap
                    WellArg.toWell).map Well.core :=
  ⟨⟨rfl, rfl⟩,
   add_wells_filters_nonwells_silently mGrid7 descEx7 odEx7 rfl rfl
     [WellArg.wellObj wEx1, WellArg.nonWell 3]⟩

/-- C10.  Every `add_wells` call recomputes and overwrites the cached
distance matrix of every well in the model — the previously registered
wells included, not only the newly added ones — against the grid
descriptor current at the time of the call, so afterwards every
registered well's distance matrix agrees with the current grid. -/
theorem add_wells_recomputes_all_distmats (m : GWModel)
    (desc : GridDescription) (od : NArr)
    (hdesc : m.grid.description = some desc)
    (hod : m.grid.origindist = some od) (args : List WellArg) :
    m.add_wells args = Except.ok { m with
      wells := (m.wells ++ args.filterMap WellArg.toWell).map (fun w =>
        { w with distmat := some (calculate_well_dist_mat w od.shape
            desc.res_x desc.res_y desc.x_min desc.y_max) }) }
    ∧ ∀ m', m.add_wells args = Except.ok m' →
        ∀ w' ∈ m'.wells, w'.distmat
          = some (calculate_well_dist_mat w' od.shape
              desc.res_x desc.res_y desc.x_min desc.y_max) := by
  have hc := add_wells_char m desc od hdesc hod args
  refine ⟨hc, ?_⟩
  intro m' hm'
  rw [hc] at hm'
  have h := (Except.ok.inj hm').symm
  subst h
  intro w' hw'
  dsimp only at hw'
  obtain ⟨w, _, rfl⟩ := List.mem_map.mp hw'
  rfl

/-- A previously registered well whose cached distance matrix is stale
(it does not match the current grid). -/
def wStale : Well :=
  { ID := "old", x := 80, y := 20, Q := 0.02,
    distmat := some ⟨(3, 3), fun _ _ => 42⟩ }

/-- The example grid-only model with one already-registered well
carrying a stale distance matrix. -/
def mGrid10 : GWModel := { mGrid7 with wells := [wStale] }

/-- Witness for C10: adding a new well to a model with a stale
previously registered well recomputes both distance matrices against
the current grid. -/
theorem add_wells_recomputes_all_distmats_witness :
    (mGrid10.grid.description = some descEx7
      ∧ mGrid10.grid.origindist = some odEx7)
    ∧ (mGrid10.add_wells [WellArg.wellObj wEx1] = Except.ok { mGrid10 with
        wells := (mGrid10.wells
            ++ [WellArg.wellObj wEx1].filterMap WellArg.toWell).map (fun w =>
          { w with distmat := some (calculate_well_dist_mat w odEx7.shape
              descEx7.res_x descEx7.res_y descEx7.x_min descEx7.y_max) }) }
      ∧ ∀ m', mGrid10.add_wells [WellArg.wellObj wEx1] = Except.ok m' →
          ∀ w' ∈ m'.wells, w'.distmat
            = some (calculate_well_dist_mat w' odEx7.shape
                descEx7.res_x descEx7.res_y descEx7.x_min descEx7.y_max)) :=
  ⟨⟨rfl, rfl⟩,
   add_wells_recomputes_all_distmats mGrid10 descEx7 odEx7 rfl rfl
     [WellArg.wellObj wEx1]⟩

